import Mathlib

/-!
Verification of the Acceso API asynchronous job-processing subsystem.

Shallow embedding of the relevant JavaScript source units:
  * `src/utils/cache.js`       — `checkRateLimit` (Redis sorted-set sliding window)
  * `src/services/solana.js`   — provider health tracking (`markProviderFailed`)
  * `src/services/bitquery.js` — `generateBalanceProof`, `queueProofGeneration`,
                                 `executeWorkflow`, `evaluateConditions`, `getNestedValue`
  * `src/services/webhook.js`  — `deliverWebhook`
  * models `WorkflowExecution.updateStatus`, `WebhookDelivery.updateStatus`,
    `Workflow.updateExecutionStats`

Timestamps are modelled as `Int` (JS `Date.now()` milliseconds).  External
effects (the Redis server, the SQL database, the snarkjs prover, axios) are
modelled by explicit state threading or by function parameters, so that every
definition is executable.
-/

namespace Acceso

/-! ## Rate limiter (`src/utils/cache.js`, `checkRateLimit`)

The Redis sorted set holding one member per admitted request is modelled by
the list of member scores (admission timestamps).  Each admitted request has a
fresh random member name, so `ZADD` always inserts a new element; membership
is therefore a multiset of scores, kept here as a list in insertion order.
`EXPIRE` only sets a TTL and does not change membership, so it is a no-op on
this abstraction. -/

/-- One call of `checkRateLimit(key, maxRequests, windowSeconds)` executed
without interleaving: `ZREMRANGEBYSCORE key 0 windowStart` (drops scores `≤
now - windowSeconds*1000`, the range bound being inclusive), `ZCARD`, and on
admission `ZADD key now member`.  Returns the `allowed` flag and the new
sorted-set state. -/
def checkRateLimit (entries : List Int) (now : Int) (maxRequests windowSeconds : Nat) :
    Bool × List Int :=
  let windowStart : Int := now - (windowSeconds * 1000 : Nat)
  let pruned := entries.filter (fun s => windowStart < s)
  if maxRequests ≤ pruned.length then
    (false, pruned)
  else
    (true, pruned ++ [now])

/-- Sequential trace of `checkRateLimit` calls for one key: the `allowed` flag
of each call in order, starting from sorted-set state `entries`. -/
def rateLimitTrace (maxRequests windowSeconds : Nat) :
    List Int → List Int → List Bool
  | _, [] => []
  | entries, t :: ts =>
    let r := checkRateLimit entries t maxRequests windowSeconds
    r.1 :: rateLimitTrace maxRequests windowSeconds r.2 ts

lemma checkRateLimit_allowed (entries : List Int) (now : Int) (maxRequests windowSeconds : Nat)
    (hkeep : ∀ x ∈ entries, now - (windowSeconds * 1000 : Nat) < x)
    (hlen : entries.length < maxRequests) :
    checkRateLimit entries now maxRequests windowSeconds = (true, entries ++ [now]) := by
  simp only [checkRateLimit]
  rw [List.filter_eq_self.mpr (by intro a ha; exact decide_eq_true (hkeep a ha))]
  simp [Nat.not_le.mpr hlen, hlen.not_le]

lemma checkRateLimit_denied (entries : List Int) (now : Int) (maxRequests windowSeconds : Nat)
    (hkeep : ∀ x ∈ entries, now - (windowSeconds * 1000 : Nat) < x)
    (hlen : maxRequests ≤ entries.length) :
    checkRateLimit entries now maxRequests windowSeconds = (false, entries) := by
  simp only [checkRateLimit]
  rw [List.filter_eq_self.mpr (by intro a ha; exact decide_eq_true (hkeep a ha))]
  simp [hlen]

lemma checkRateLimit_expired (entries : List Int) (now : Int) (maxRequests windowSeconds : Nat)
    (hdrop : ∀ x ∈ entries, x ≤ now - (windowSeconds * 1000 : Nat))
    (hpos : 0 < maxRequests) :
    checkRateLimit entries now maxRequests windowSeconds = (true, [now]) := by
  simp only [checkRateLimit]
  rw [List.filter_eq_nil_iff.mpr
    (by intro a ha; have h := hdrop a ha; simp only [decide_eq_true_eq]
        push_cast at h ⊢; omega)]
  simp [hpos, Nat.not_le.mpr hpos]

end Acceso

/-- C1: with maxRequests = 5 and windowSeconds = 60, six sequential
`checkRateLimit` calls whose times all fall inside one window admit the first
five and deny the sixth; a seventh call made after the window has elapsed
(every recorded timestamp at least `windowSeconds` old) is admitted again. -/
theorem Acceso.checkRateLimit_window_of_five (t₁ t₂ t₃ t₄ t₅ t₆ t₇ : Int)
    (h12 : t₁ ≤ t₂) (h23 : t₂ ≤ t₃) (h34 : t₃ ≤ t₄) (h45 : t₄ ≤ t₅) (h56 : t₅ ≤ t₆)
    (hwin : t₆ - t₁ < 60000) (helapsed : t₅ + 60000 ≤ t₇) :
    rateLimitTrace 5 60 [] [t₁, t₂, t₃, t₄, t₅, t₆, t₇] =
      [true, true, true, true, true, false, true] := by
  have s1 := checkRateLimit_allowed [] t₁ 5 60 (by simp) (by simp)
  have s2 := checkRateLimit_allowed [t₁] t₂ 5 60 (by intro x hx; simp at hx; omega) (by simp)
  have s3 := checkRateLimit_allowed [t₁, t₂] t₃ 5 60
    (by intro x hx; simp at hx; rcases hx with h | h <;> omega) (by simp)
  have s4 := checkRateLimit_allowed [t₁, t₂, t₃] t₄ 5 60
    (by intro x hx; simp at hx; rcases hx with h | h | h <;> omega) (by simp)
  have s5 := checkRateLimit_allowed [t₁, t₂, t₃, t₄] t₅ 5 60
    (by intro x hx; simp at hx; rcases hx with h | h | h | h <;> omega) (by simp)
  have s6 := checkRateLimit_denied [t₁, t₂, t₃, t₄, t₅] t₆ 5 60
    (by intro x hx; simp at hx; rcases hx with h | h | h | h | h <;> omega) (by simp)
  have s7 := checkRateLimit_expired [t₁, t₂, t₃, t₄, t₅] t₇ 5 60
    (by intro x hx; simp at hx; rcases hx with h | h | h | h | h <;> omega) (by norm_num)
  simp [rateLimitTrace, s1, s2, s3, s4, s5, s6, s7]

/-- Witness for C1 at concrete call times 0,10,20,30,40,50 and 70000. -/
theorem Acceso.checkRateLimit_window_of_five_witness :
    Acceso.rateLimitTrace 5 60 [] [0, 10, 20, 30, 40, 50, 70000] =
      [true, true, true, true, true, false, true] :=
  Acceso.checkRateLimit_window_of_five 0 10 20 30 40 50 70000
    (by norm_num) (by norm_num) (by norm_num) (by norm_num) (by norm_num)
    (by norm_num) (by norm_num)

namespace Acceso

/-! ## Interleaved `checkRateLimit` (C9)

Each of the Redis commands issued by `checkRateLimit` — `ZREMRANGEBYSCORE`,
`ZCARD`, `ZADD`, `EXPIRE` — is individually atomic, but the function awaits
each one separately (no `MULTI`/Lua script), so two concurrent calls for the
same key interleave at these await boundaries.  A client is a small program
stepping through the four commands; the shared state is the key's sorted
set. -/

/-- Program counter of one in-flight `checkRateLimit` call: which Redis
command it will issue next.  `toDecide n` holds the count read by `ZCARD`;
the admission decision and the `ZADD` happen in the same step because the
comparison is local to the client. -/
inductive RLPhase where
  | toPrune : RLPhase
  | toCard : RLPhase
  | toDecide : Nat → RLPhase
  | toExpire : RLPhase
  | finished : Bool → RLPhase
  deriving DecidableEq, Repr

/-- One atomic step of a client executing
`checkRateLimit(key, maxRequests, windowSeconds)` at time `now`, against the
shared sorted-set state. -/
def rlStep (now : Int) (maxRequests windowSeconds : Nat) :
    RLPhase × List Int → RLPhase × List Int
  | (.toPrune, st) =>
    (.toCard, st.filter (fun s => now - (windowSeconds * 1000 : Nat) < s))
  | (.toCard, st) => (.toDecide st.length, st)
  | (.toDecide n, st) =>
    if maxRequests ≤ n then (.finished false, st) else (.toExpire, st ++ [now])
  | (.toExpire, st) => (.finished true, st)
  | (.finished a, st) => (.finished a, st)

/-- Run two concurrent `checkRateLimit` calls under a schedule: `false`
advances the first client, `true` the second.  Both calls use the same key
(shared state), time, and limits. -/
def rlRace (now : Int) (maxRequests windowSeconds : Nat) :
    List Bool → (RLPhase × RLPhase × List Int) → RLPhase × RLPhase × List Int
  | [], s => s
  | c :: cs, (p₁, p₂, st) =>
    if c then
      let r := rlStep now maxRequests windowSeconds (p₂, st)
      rlRace now maxRequests windowSeconds cs (p₁, r.1, r.2)
    else
      let r := rlStep now maxRequests windowSeconds (p₁, st)
      rlRace now maxRequests windowSeconds cs (r.1, p₂, r.2)

end Acceso

/-- C9: the claim that two concurrent `checkRateLimit` calls never both
return `allowed = true` when a single admission slot remains is false.  With
maxRequests = 5 and four in-window entries already recorded, the interleaving
prune₁, card₁, prune₂, card₂, add₁, expire₁, add₂, expire₂ makes both clients
read count = 4 and both admit: the prune/count/record sequence is not atomic
(separate awaited Redis commands, no transaction). -/
theorem Acceso.checkRateLimit_race_both_allowed :
    Acceso.rlRace 100000 5 60
        [false, false, true, true, false, false, true, true]
        (.toPrune, .toPrune, [100000, 100000, 100000, 100000]) =
      (.finished true, .finished true,
        [100000, 100000, 100000, 100000, 100000, 100000]) := by
  decide

namespace Acceso

/-! ## Provider health (`src/services/solana.js`)

Per-endpoint entry of `providerHealth`: `{ healthy, failures }` (`lastCheck`
is never read by the health logic and is omitted).  `markProviderFailed`
increments the failure counter and flips `healthy` once it reaches 2; the
60-second `setTimeout` reset and the fail-open reset in `getHealthyProvider`
both restore `{ healthy := true, failures := 0 }`, i.e. the fresh state.  A
successful call in `rpcRequest` returns without touching the entry. -/

structure ProviderHealth where
  healthy : Bool
  failures : Nat
  deriving DecidableEq, Repr

/-- Source `markProviderFailed(providerName)`: increment `failures`; when the counter
reaches 2 the endpoint is marked unhealthy (the scheduled 60 s reset is a
separate later event, not part of this call's effect on the entry). -/
def markProviderFailed (h : ProviderHealth) : ProviderHealth :=
  let f := h.failures + 1
  if 2 ≤ f then { healthy := false, failures := f } else { h with failures := f }

/-- Outcome of one RPC call routed through an endpoint. -/
inductive CallOutcome where
  | success : CallOutcome
  | failure : CallOutcome
  deriving DecidableEq, Repr

/-- Effect of a sequence of call outcomes on one endpoint's health entry, as
produced by `rpcRequest`: a failure runs `markProviderFailed`; a success
returns the result without modifying the entry. -/
def applyOutcomes (h : ProviderHealth) : List CallOutcome → ProviderHealth
  | [] => h
  | .success :: rest => applyOutcomes h rest
  | .failure :: rest => applyOutcomes (markProviderFailed h) rest

/-- The health entry every endpoint starts with (and returns to on reset). -/
def freshHealth : ProviderHealth := { healthy := true, failures := 0 }

lemma markProviderFailed_failures (h : ProviderHealth) :
    (markProviderFailed h).failures = h.failures + 1 := by
  simp only [markProviderFailed]
  split <;> rfl

lemma markProviderFailed_healthy (h : ProviderHealth) :
    ((markProviderFailed h).healthy = false ↔
      (h.healthy = false ∨ 2 ≤ h.failures + 1)) := by
  simp only [markProviderFailed]
  split <;> rename_i hs <;> simp [hs]

lemma applyOutcomes_inv (outs : List CallOutcome) (h : ProviderHealth) :
    (applyOutcomes h outs).failures = h.failures + outs.count .failure ∧
      ((applyOutcomes h outs).healthy = false ↔
        h.healthy = false ∨
          (1 ≤ outs.count .failure ∧ 2 ≤ h.failures + outs.count .failure)) := by
  induction outs generalizing h with
  | nil => simp [applyOutcomes]
  | cons o rest ih =>
    cases o with
    | success =>
      have := ih h
      simpa [applyOutcomes, List.count_cons] using this
    | failure =>
      obtain ⟨hf, hh⟩ := ih (markProviderFailed h)
      have hc : (CallOutcome.failure :: rest).count .failure = rest.count .failure + 1 := by
        simp [List.count_cons]
      constructor
      · simp only [applyOutcomes, hc]
        rw [hf, markProviderFailed_failures]
        omega
      · simp only [applyOutcomes, hc]
        rw [hh, markProviderFailed_healthy, markProviderFailed_failures]
        by_cases hb : h.healthy = false
        · exact iff_of_true (Or.inl (Or.inl hb)) (Or.inl hb)
        · constructor
          · rintro ((hA | hB) | ⟨hC, hD⟩)
            · exact absurd hA hb
            · exact Or.inr ⟨by omega, by omega⟩
            · exact Or.inr ⟨by omega, by omega⟩
          · rintro (hA | ⟨hC, hD⟩)
            · exact absurd hA hb
            · rcases Nat.lt_or_ge h.failures 1 with hlow | hhigh
              · exact Or.inr ⟨by omega, by omega⟩
              · exact Or.inl (Or.inr (by omega))

end Acceso

/-- C5 counterexample: two non-consecutive failures (a success in between) on
a fresh endpoint still mark it unhealthy — the source never resets the
failure counter on a successful call, so the threshold counts cumulative
failures, not consecutive ones.  Under the claim the endpoint would still be
healthy here. -/
theorem Acceso.markProviderFailed_nonconsecutive_unhealthy :
    (Acceso.applyOutcomes Acceso.freshHealth
        [.failure, .success, .failure]).healthy = false := by
  decide

/-- C5 amended: starting from a fresh entry (endpoint start-up, the 60 s
cooldown reset, or the fail-open reset), the failure counter equals the total
number of failed calls since that reset — successes never clear it — and the
endpoint is unhealthy exactly when at least 2 such failures have accumulated;
in particular a single failure never marks it unhealthy. -/
theorem Acceso.markProviderFailed_cumulative_threshold (outs : List Acceso.CallOutcome) :
    (Acceso.applyOutcomes Acceso.freshHealth outs).failures = outs.count .failure ∧
      ((Acceso.applyOutcomes Acceso.freshHealth outs).healthy = false ↔
        2 ≤ outs.count .failure) := by
  have h := Acceso.applyOutcomes_inv outs Acceso.freshHealth
  rcases h with ⟨hf, hh⟩
  have h0 : Acceso.freshHealth.failures = 0 := rfl
  have h1 : Acceso.freshHealth.healthy = true := rfl
  refine ⟨by rw [hf, h0, Nat.zero_add], ?_⟩
  rw [hh, h0, h1]
  constructor
  · rintro (habs | ⟨hC, hD⟩)
    · exact absurd habs (by simp)
    · omega
  · intro h2
    exact Or.inr ⟨by omega, by omega⟩

namespace Acceso

/-! ## Direct proof generation (`src/services/bitquery.js`, `generateBalanceProof`)

The external prover `snarkjs.groth16.fullProve(inputs, wasmPath, zkeyPath)` is
modelled by a function parameter taking the two circuit inputs (already
stringified, as in the source's `inputs` object) and returning the prover's
`{ proof, publicSignals }`.  The second component of the result counts how
many times the prover was invoked.  Balances are `Int` (JS `BigInt`). -/

structure ProverOutput where
  proof : String
  publicSignals : String
  deriving DecidableEq, Repr

/-- Return value of `generateBalanceProof`:
`{ proof, publicSignals, threshold: threshold.toString(), circuit: 'balance' }`. -/
structure BalanceProofResult where
  proof : String
  publicSignals : String
  threshold : String
  circuit : String
  deriving DecidableEq, Repr

/-- Source `generateBalanceProof(balance, threshold)`: convert both arguments with
`BigInt`, throw when `balanceNum < thresholdNum`, otherwise call the prover
once on the stringified inputs and return its proof and public signals. -/
def generateBalanceProof (fullProve : String → String → ProverOutput)
    (balance threshold : Int) : Except String BalanceProofResult × Nat :=
  if balance < threshold then
    (.error "Balance is below threshold - cannot generate valid proof", 0)
  else
    let out := fullProve (toString balance) (toString threshold)
    (.ok { proof := out.proof, publicSignals := out.publicSignals,
           threshold := toString threshold, circuit := "balance" }, 1)

end Acceso

/-- C2: `generateBalanceProof` with `balance < threshold` throws the
precondition error and never invokes the prover (invocation count 0); with
`balance ≥ threshold` it invokes the prover exactly once and returns that
invocation's proof and public signals. -/
theorem Acceso.generateBalanceProof_precondition
    (fullProve : String → String → Acceso.ProverOutput) (balance threshold : Int) :
    (balance < threshold →
      Acceso.generateBalanceProof fullProve balance threshold =
        (.error "Balance is below threshold - cannot generate valid proof", 0)) ∧
    (threshold ≤ balance →
      Acceso.generateBalanceProof fullProve balance threshold =
        (.ok { proof := (fullProve (toString balance) (toString threshold)).proof,
               publicSignals := (fullProve (toString balance) (toString threshold)).publicSignals,
               threshold := toString threshold, circuit := "balance" }, 1)) := by
  constructor
  · intro hlt
    simp [Acceso.generateBalanceProof, hlt]
  · intro hge
    simp [Acceso.generateBalanceProof, Int.not_lt.mpr hge]

/-- Witness for C2 at balance = 50 / threshold = 100 (error, prover not
invoked) and balance = 150 / threshold = 100 (prover invoked exactly once),
with a concrete prover. -/
theorem Acceso.generateBalanceProof_precondition_witness :
    Acceso.generateBalanceProof (fun _ _ => ⟨"p", "s"⟩) 50 100 =
        (.error "Balance is below threshold - cannot generate valid proof", 0) ∧
      Acceso.generateBalanceProof (fun _ _ => ⟨"p", "s"⟩) 150 100 =
        (.ok { proof := "p", publicSignals := "s",
               threshold := toString (100 : Int), circuit := "balance" }, 1) :=
  ⟨(Acceso.generateBalanceProof_precondition (fun _ _ => ⟨"p", "s"⟩) 50 100).1 (by norm_num),
   (Acceso.generateBalanceProof_precondition (fun _ _ => ⟨"p", "s"⟩) 150 100).2 (by norm_num)⟩

namespace Acceso

/-! ## Proof queue admission (`src/services/bitquery.js`, `queueProofGeneration`)

`CIRCUITS` is the static circuit catalogue (only the ids matter here);
`proofQueue` is modelled by the list of waiting jobs, so
`proofQueue.getWaitingCount()` is its length and `proofQueue.add(data)`
appends. `config.zkProof.maxQueueSize` is a parameter
(`ZK_MAX_QUEUE_SIZE`, default 100). -/

/-- Ids of the entries of the `CIRCUITS` catalogue, in order. -/
def CIRCUITS : List String := ["balance", "holder", "threshold"]

/-- Source `getCircuit(circuitId)`: `CIRCUITS.find(c => c.id === circuitId) || null`. -/
def getCircuit (circuitId : String) : Option String :=
  CIRCUITS.find? (fun c => c == circuitId)

/-- Job payload passed to `queueProofGeneration`; only `circuitId` is
inspected, the rest of `data` is opaque. -/
structure ProofJob where
  circuitId : String
  deriving DecidableEq, Repr

/-- Source `queueProofGeneration(proofId, data)`: reject unknown circuits, then fail
fast with the queue-full error when the waiting count has reached
`maxQueueSize`, otherwise append the job to the queue. -/
def queueProofGeneration (data : ProofJob) (waiting : List ProofJob)
    (maxQueueSize : Nat) : Except String (List ProofJob) :=
  match getCircuit data.circuitId with
  | none => .error ("Circuit " ++ data.circuitId ++ " not found")
  | some _ =>
    if maxQueueSize ≤ waiting.length then
      .error "Proof queue is full. Please try again later."
    else
      .ok (waiting ++ [data])

end Acceso

/-- C6: for a known circuit, `queueProofGeneration` fails fast with the
queue-full error — enqueuing nothing — exactly when the waiting count has
reached `maxQueueSize`; below the bound it appends the job to the queue. -/
theorem Acceso.queueProofGeneration_bounded (data : Acceso.ProofJob)
    (waiting : List Acceso.ProofJob) (maxQueueSize : Nat) (c : String)
    (hc : Acceso.getCircuit data.circuitId = some c) :
    (maxQueueSize ≤ waiting.length →
      Acceso.queueProofGeneration data waiting maxQueueSize =
        .error "Proof queue is full. Please try again later.") ∧
    (waiting.length < maxQueueSize →
      Acceso.queueProofGeneration data waiting maxQueueSize = .ok (waiting ++ [data])) := by
  constructor
  · intro hfull
    simp [Acceso.queueProofGeneration, hc, hfull]
  · intro hroom
    simp [Acceso.queueProofGeneration, hc, Nat.not_le.mpr hroom]

/-- Witness for C6: circuit "balance", maxQueueSize = 2; a queue holding two
waiting jobs rejects a third, a queue holding one admits it. -/
theorem Acceso.queueProofGeneration_bounded_witness :
    Acceso.queueProofGeneration ⟨"balance"⟩ [⟨"holder"⟩, ⟨"threshold"⟩] 2 =
        .error "Proof queue is full. Please try again later." ∧
      Acceso.queueProofGeneration ⟨"balance"⟩ [⟨"holder"⟩] 2 =
        .ok [⟨"holder"⟩, ⟨"balance"⟩] :=
  ⟨(Acceso.queueProofGeneration_bounded ⟨"balance"⟩ [⟨"holder"⟩, ⟨"threshold"⟩] 2
      "balance" (by decide)).1 (by decide),
   (Acceso.queueProofGeneration_bounded ⟨"balance"⟩ [⟨"holder"⟩] 2
      "balance" (by decide)).2 (by decide)⟩

namespace Acceso

/-! ## Webhook delivery (`src/services/webhook.js`, `deliverWebhook`)

`axios.post(url, payload, { validateStatus: s => s < 500, ... })` either
fails at the transport level (network error / timeout), returns the response
when its status satisfies `validateStatus` (strictly below 500), or throws an
axios error for statuses ≥ 500.  The response body is modelled by its
`JSON.stringify` image.  Each `WebhookDelivery.updateStatus` call overwrites
every column it sets (`status`, `response_code`, `response_body`, `error`),
with omitted arguments stored as NULL; the calls are recorded here in order. -/

/-- Outcome of the `axios.post` call made by `deliverWebhook`. -/
inductive AxiosOutcome where
  | response : Nat → String → AxiosOutcome
  | netError : String → AxiosOutcome
  deriving DecidableEq, Repr

/-- The fields of one `WebhookDelivery.updateStatus` call (each call
overwrites all four columns; `none` is stored as NULL). -/
structure DeliveryUpdate where
  status : String
  responseCode : Option Nat
  responseBody : Option String
  error : Option String
  deriving DecidableEq, Repr

/-- Observable outcome of one `deliverWebhook` attempt: the
`WebhookDelivery.updateStatus` calls in order, whether
`Webhook.updateLastTriggered` ran, and the error the attempt raised (if any —
a raised error makes the queue count the attempt against the retry limit). -/
structure DeliveryOutcome where
  updates : List DeliveryUpdate
  lastTriggeredUpdated : Bool
  raised : Option String
  deriving DecidableEq, Repr

/-- Model of `validateStatus: (status) => status < 500` — axios resolves for statuses
below 500 and throws `Request failed with status code N` otherwise. -/
def axiosPostResolve (r : AxiosOutcome) : Except String (Nat × String) :=
  match r with
  | .netError msg => .error msg
  | .response status body =>
    if status < 500 then .ok (status, body)
    else .error ("Request failed with status code " ++ toString status)

/-- Source `deliverWebhook(deliveryId, webhook, event, payload, attempt)` as a
function of the HTTP outcome.  In the resolved branch the delivery row is
updated with the status classification, response code, and body truncated to
1000 characters; a non-2xx classification then throws `Webhook returned N`
inside the `try`, so the `catch` updates the row a second time with only the
error message.  Transport errors and ≥ 500 responses reach the `catch`
directly. -/
def deliverWebhook (r : AxiosOutcome) : DeliveryOutcome :=
  match axiosPostResolve r with
  | .ok (status, body) =>
    let isSuccess := 200 ≤ status ∧ status < 300
    let first : DeliveryUpdate :=
      { status := if isSuccess then "success" else "failed",
        responseCode := some status,
        responseBody := some (body.take 1000),
        error := none }
    if isSuccess then
      { updates := [first], lastTriggeredUpdated := true, raised := none }
    else
      let msg := "Webhook returned " ++ toString status
      { updates := [first,
          { status := "failed", responseCode := none, responseBody := none,
            error := some msg }],
        lastTriggeredUpdated := false, raised := some msg }
  | .error msg =>
    { updates := [{ status := "failed", responseCode := none,
                    responseBody := none, error := some msg }],
      lastTriggeredUpdated := false, raised := some msg }

end Acceso

/-- C7 counterexample: a 500 response refutes the claim that every non-2xx
status yields a failed delivery update carrying the response code and
truncated body — `validateStatus` makes axios throw before any update with a
response code can happen, so the only update records just the error
message. -/
theorem Acceso.deliverWebhook_500_no_response_code :
    Acceso.deliverWebhook (.response 500 "oops") =
      { updates := [{ status := "failed", responseCode := none, responseBody := none,
                      error := some "Request failed with status code 500" }],
        lastTriggeredUpdated := false,
        raised := some "Request failed with status code 500" } := by
  decide

/-- C7 amended: `deliverWebhook` classifies exactly the statuses in
[200,300) as success (single update, code and truncated body recorded,
nothing raised).  Every other response consumes a retry slot by raising an
error, but what the final delivery row holds differs by range: for statuses
in [300,500) a first update records the code and truncated body and the
thrown `Webhook returned N` then triggers a second, overwriting update with
only the error message; for statuses ≥ 500 the HTTP client itself throws, so
the single update records only the error message and never the code or
body. -/
theorem Acceso.deliverWebhook_classification (status : Nat) (body : String) :
    (200 ≤ status ∧ status < 300 →
      Acceso.deliverWebhook (.response status body) =
        { updates := [{ status := "success", responseCode := some status,
                        responseBody := some (body.take 1000), error := none }],
          lastTriggeredUpdated := true, raised := none }) ∧
    (status < 500 → status < 200 ∨ 300 ≤ status →
      Acceso.deliverWebhook (.response status body) =
        { updates := [{ status := "failed", responseCode := some status,
                        responseBody := some (body.take 1000), error := none },
                      { status := "failed", responseCode := none, responseBody := none,
                        error := some ("Webhook returned " ++ toString status) }],
          lastTriggeredUpdated := false,
          raised := some ("Webhook returned " ++ toString status) }) ∧
    (500 ≤ status →
      Acceso.deliverWebhook (.response status body) =
        { updates := [{ status := "failed", responseCode := none, responseBody := none,
                        error := some ("Request failed with status code " ++ toString status) }],
          lastTriggeredUpdated := false,
          raised := some ("Request failed with status code " ++ toString status) }) := by
  refine ⟨?_, ?_, ?_⟩
  · rintro ⟨h2, h3⟩
    have h5 : status < 500 := by omega
    simp [Acceso.deliverWebhook, Acceso.axiosPostResolve, h5, h2, h3]
  · intro h5 hnot
    have hns : ¬(200 ≤ status ∧ status < 300) := by omega
    simp [Acceso.deliverWebhook, Acceso.axiosPostResolve, h5, hns]
  · intro h5
    have hns : ¬(status < 500) := by omega
    simp [Acceso.deliverWebhook, Acceso.axiosPostResolve, hns]

/-- Witness for C7 amended at statuses 204 (success), 404 (two updates, code
then overwrite), and 503 (single catch update). -/
theorem Acceso.deliverWebhook_classification_witness :
    Acceso.deliverWebhook (.response 204 "") =
        { updates := [{ status := "success", responseCode := some 204,
                        responseBody := some "", error := none }],
          lastTriggeredUpdated := true, raised := none } ∧
      Acceso.deliverWebhook (.response 404 "nf") =
        { updates := [{ status := "failed", responseCode := some 404,
                        responseBody := some "nf", error := none },
                      { status := "failed", responseCode := none, responseBody := none,
                        error := some "Webhook returned 404" }],
          lastTriggeredUpdated := false, raised := some "Webhook returned 404" } ∧
      Acceso.deliverWebhook (.response 503 "down") =
        { updates := [{ status := "failed", responseCode := none, responseBody := none,
                        error := some "Request failed with status code 503" }],
          lastTriggeredUpdated := false,
          raised := some "Request failed with status code 503" } :=
  ⟨by rw [(Acceso.deliverWebhook_classification 204 "").1 (by norm_num), String.take_eq]
      norm_num [List.take_of_length_le],
   by rw [(Acceso.deliverWebhook_classification 404 "nf").2.1 (by norm_num) (by norm_num),
        String.take_eq]
      norm_num [List.take_of_length_le]
      rfl,
   by rw [(Acceso.deliverWebhook_classification 503 "down").2.2 (by norm_num)]; rfl⟩

namespace Acceso

/-! ## Trigger data and condition evaluation (`src/services/bitquery.js`)

JavaScript values as they occur in trigger data and in workflow condition
configuration: `undefined`, `null`, booleans, integer numbers, strings, and
plain objects.  The semantics of the JS operators used by
`evaluateConditions` (`===`, `<=`, `>=`, `String(...)`, `includes`) is spelled
out below for these values. -/

inductive JSValue where
  | undefined : JSValue
  | null : JSValue
  | bool : Bool → JSValue
  | num : Int → JSValue
  | str : String → JSValue
  | obj : List (String × JSValue) → JSValue

/-- Optional chaining `cur?.[key]`: `undefined` and `null` yield
`undefined`; property access on an object looks the key up among its own
fields, a missing key giving `undefined`.  Property access on a primitive
also yields `undefined` for the data-field keys occurring in this repository
(no prototype properties are used as path segments). -/
def jsIndex : JSValue → String → JSValue
  | .obj fields, k => (fields.lookup k).getD .undefined
  | _, _ => .undefined

/-- JS `path.split('.')`: character-level split on the dot separator (the
only separator `getNestedValue` uses); an empty path gives `[""]`, adjacent
or trailing dots give empty segments, as in JS. -/
def splitPath (path : String) : List String := go path.data [] where
  go : List Char → List Char → List String
  | [], acc => [String.mk acc.reverse]
  | c :: cs, acc =>
    if c = '.' then String.mk acc.reverse :: go cs [] else go cs (c :: acc)

/-- Source `getNestedValue(obj, path)`:
`path.split('.').reduce((current, key) => current?.[key], obj)`. -/
def getNestedValue (obj : JSValue) (path : String) : JSValue :=
  (splitPath path).foldl jsIndex obj

/-- JS strict equality `===` on the values above.  Object/object strict
equality is reference identity; a condition's configured target and a
trigger-data value come from distinct JSON documents, so that case is
`false`. -/
def jsStrictEq : JSValue → JSValue → Bool
  | .undefined, .undefined => true
  | .null, .null => true
  | .bool a, .bool b => a == b
  | .num a, .num b => a == b
  | .str a, .str b => a == b
  | _, _ => false

/-- JS `ToNumber`, with `none` for NaN.  Strings restrict to the decimal
integer grammar (the only numeric strings appearing in this repository's
conditions); any other string is NaN. -/
def jsToNum : JSValue → Option Int
  | .undefined => none
  | .null => some 0
  | .bool b => some (if b then 1 else 0)
  | .num n => some n
  | .str s => if s.trim = "" then some 0 else s.trim.toInt?
  | .obj _ => none

/-- JS relational `a <= b`: two strings compare lexicographically; otherwise
both operands are converted to numbers and a NaN operand makes the comparison
false. -/
def jsLe (a b : JSValue) : Bool :=
  match a, b with
  | .str s, .str t => decide (s ≤ t)
  | _, _ =>
    match jsToNum a, jsToNum b with
    | some x, some y => decide (x ≤ y)
    | _, _ => false

/-- JS relational `a >= b`, same coercions as `jsLe`. -/
def jsGe (a b : JSValue) : Bool :=
  match a, b with
  | .str s, .str t => decide (t ≤ s)
  | _, _ =>
    match jsToNum a, jsToNum b with
    | some x, some y => decide (y ≤ x)
    | _, _ => false

/-- JS `String(value)`. -/
def jsToString : JSValue → String
  | .undefined => "undefined"
  | .null => "null"
  | .bool b => if b then "true" else "false"
  | .num n => toString n
  | .str s => s
  | .obj _ => "[object Object]"

/-- Character-list test: does `t` occur at the head of `s`? -/
def charsStartWith : List Char → List Char → Bool
  | _, [] => true
  | [], _ :: _ => false
  | a :: as, b :: bs => a == b && charsStartWith as bs

/-- Character-list substring occurrence test. -/
def charsContain : List Char → List Char → Bool
  | [], t => t.isEmpty
  | s@(_ :: rest), t => charsStartWith s t || charsContain rest t

/-- JS `s.includes(t)` (the argument is coerced by `ToString` at the call
site). -/
def hasSubstr (s t : String) : Bool := charsContain s.data t.data

/-- One workflow condition `{field, type, operator, value}`.  An absent
`field` or `type` is the empty string, which is falsy in JS exactly like the
absent property, so `condition.field || condition.type` is the first
non-empty of the two. -/
structure Condition where
  field : String
  ctype : String
  operator : String
  value : JSValue

/-- Source `evaluateConditions(conditions, data)`: short-circuit conjunction over
the list; each condition looks its field path up in the trigger data and
applies its operator; the `default` branch of the `switch` only logs the
unknown operator, so such a condition never fails the conjunction. -/
def evaluateConditions : List Condition → JSValue → Bool
  | [], _ => true
  | c :: rest, data =>
    let value := getNestedValue data (if c.field = "" then c.ctype else c.field)
    let pass : Bool :=
      match c.operator with
      | "equals" | "eq" => jsStrictEq value c.value
      | "not_equals" | "ne" => !(jsStrictEq value c.value)
      | "greater_than" | "gt" => !(jsLe value c.value)
      | "less_than" | "lt" => !(jsGe value c.value)
      | "contains" => hasSubstr (jsToString value) (jsToString c.value)
      | "exists" => !(jsStrictEq value .undefined || jsStrictEq value .null)
      | _ => true
    pass && evaluateConditions rest data

end Acceso

namespace Acceso

/-! ## Workflow execution (`src/services/bitquery.js`, `executeWorkflow`)

The side effects of one `executeWorkflow(executionId, workflow, triggerData)`
run: the `WorkflowExecution.updateStatus` calls, the
`Workflow.updateExecutionStats` calls, the actions for which `executeAction`
was invoked, and the error rethrown to the queue (if any).  The per-action
effect of `executeAction` is abstracted into a `runAction` parameter
returning `ok` or a thrown error message. -/

structure WfAction where
  atype : String

structure Workflow where
  id : Nat
  conditions : List Condition
  actions : List WfAction

/-- An entry pushed onto the local `results` array by the action loop. -/
structure ActionResult where
  action : String
  success : Bool
  error : Option String

/-- One `WorkflowExecution.updateStatus` call.  `resultActions` is the
`actions` list of the persisted `result` when the call's `result` argument
carries one; the model's `updateStatus` stores `JSON.stringify(result || {})`,
so a call made without a `result` (or with a `result` lacking `actions`)
persists no such list — `none` here. -/
structure ExecStatusUpdate where
  status : String
  resultActions : Option (List ActionResult)
  error : Option String

/-- Observable effects of one `executeWorkflow` run. -/
structure ExecOutcome where
  statusUpdates : List ExecStatusUpdate
  statsUpdates : List Bool
  executedActions : List String
  threw : Option String

/-- The `for (const action of actions)` loop: run actions in order, pushing a
success entry per completed action; the first error pushes its failure entry
and rethrows, aborting the loop.  Returns the `results` array, the actions
started, and the thrown error, if any. -/
def runActions (runAction : WfAction → Except String Unit) :
    List WfAction → List ActionResult × List String × Option String
  | [] => ([], [], none)
  | a :: rest =>
    match runAction a with
    | .ok _ =>
      let r := runActions runAction rest
      ({ action := a.atype, success := true, error := none } :: r.1,
        a.atype :: r.2.1, r.2.2)
    | .error msg =>
      ([{ action := a.atype, success := false, error := some msg }], [a.atype], some msg)

/-- Source `executeWorkflow`: when the conditions list is non-empty and evaluates
false, record a `skipped` status (its `result` is `{reason}`, without an
`actions` list) and return — no actions, no stats update.  Otherwise run the
actions: on success persist `result.actions` and update the workflow stats
with success = true; on a thrown action error the `catch` persists status
`failed` with only the error message (the local `results` array is
discarded), updates the stats with success = false, and rethrows. -/
def executeWorkflow (runAction : WfAction → Except String Unit)
    (wf : Workflow) (triggerData : JSValue) : ExecOutcome :=
  if 0 < wf.conditions.length ∧ evaluateConditions wf.conditions triggerData = false then
    { statusUpdates := [{ status := "skipped", resultActions := none, error := none }],
      statsUpdates := [], executedActions := [], threw := none }
  else
    let r := runActions runAction wf.actions
    match r.2.2 with
    | none =>
      { statusUpdates := [{ status := "success", resultActions := some r.1, error := none }],
        statsUpdates := [true], executedActions := r.2.1, threw := none }
    | some msg =>
      { statusUpdates := [{ status := "failed", resultActions := none, error := some msg }],
        statsUpdates := [false], executedActions := r.2.1, threw := some msg }

end Acceso

/-- C3: when the first action of `[A, B, C]` throws, `B` and `C` are never
executed and the execution terminates as `failed` with the triggering error —
but the persisted update carries no `result.actions` at all: the `catch`
block calls `updateStatus({status, error, logs})` without `result`, so the
collected failure entry for `A` is discarded (`updateStatus` stores
`JSON.stringify` of the missing argument, persisting an empty object), contradicting both the claim and
the loop's own `results.push` of the failure entry, which is dead code. -/
theorem Acceso.executeWorkflow_first_action_fails
    (runAction : Acceso.WfAction → Except String Unit) (id : Nat)
    (A B C : Acceso.WfAction) (data : Acceso.JSValue) (e : String)
    (hA : runAction A = .error e) :
    Acceso.executeWorkflow runAction ⟨id, [], [A, B, C]⟩ data =
      { statusUpdates := [{ status := "failed", resultActions := none, error := some e }],
        statsUpdates := [false], executedActions := [A.atype], threw := some e } := by
  simp [Acceso.executeWorkflow, Acceso.runActions, hA]

/-- Witness for C3: a concrete three-action workflow whose first action
throws "boom". -/
theorem Acceso.executeWorkflow_first_action_fails_witness :
    Acceso.executeWorkflow
        (fun a => if a.atype = "A" then .error "boom" else .ok ())
        ⟨7, [], [⟨"A"⟩, ⟨"B"⟩, ⟨"C"⟩]⟩ (.obj []) =
      { statusUpdates := [{ status := "failed", resultActions := none, error := some "boom" }],
        statsUpdates := [false], executedActions := ["A"], threw := some "boom" } :=
  Acceso.executeWorkflow_first_action_fails
    (fun a => if a.atype = "A" then .error "boom" else .ok ()) 7
    ⟨"A"⟩ ⟨"B"⟩ ⟨"C"⟩ (.obj []) "boom" (by rfl)

/-- C8 counterexample: an execution whose conditions fail terminates as
`skipped` without any `Workflow.updateExecutionStats` call — the skipped
branch returns before the stats update, so not every execution updates the
workflow's aggregate execution-count and last-status fields. -/
theorem Acceso.executeWorkflow_skipped_no_stats :
    (Acceso.executeWorkflow (fun _ => .ok ())
        ⟨3, [{ field := "amount", ctype := "", operator := "greater_than",
               value := .num 100 }], [⟨"A"⟩]⟩
        (.obj [("amount", .num 50)])).statsUpdates = [] := by
  rfl

/-- C8 amended: an execution that reaches the action phase (empty conditions
list or conditions evaluating true) updates the workflow's aggregate stats
exactly once, whether it ends `success` or `failed`; a `skipped` execution
performs no stats update at all. -/
theorem Acceso.executeWorkflow_stats_once
    (runAction : Acceso.WfAction → Except String Unit) (wf : Acceso.Workflow)
    (data : Acceso.JSValue) :
    (wf.conditions = [] ∨ Acceso.evaluateConditions wf.conditions data = true →
      (Acceso.executeWorkflow runAction wf data).statsUpdates.length = 1) ∧
    (0 < wf.conditions.length → Acceso.evaluateConditions wf.conditions data = false →
      (Acceso.executeWorkflow runAction wf data).statsUpdates = []) := by
  constructor
  · intro hpass
    have hcond : ¬(0 < wf.conditions.length ∧
        Acceso.evaluateConditions wf.conditions data = false) := by
      rcases hpass with hempty | htrue
      · simp [hempty]
      · simp [htrue]
    simp only [Acceso.executeWorkflow, if_neg hcond]
    rcases hres : (Acceso.runActions runAction wf.actions).2.2 with _ | msg <;> simp [hres]
  · intro hne hfalse
    simp [Acceso.executeWorkflow, hne, hfalse]

/-- Witness for C8 amended: a passing-conditions workflow updates stats once;
a failing-conditions workflow updates them zero times. -/
theorem Acceso.executeWorkflow_stats_once_witness :
    (Acceso.executeWorkflow (fun _ => .ok ())
        ⟨1, [], [⟨"A"⟩]⟩ (.obj [])).statsUpdates.length = 1 ∧
      (Acceso.executeWorkflow (fun _ => .ok ())
          ⟨2, [{ field := "x", ctype := "", operator := "exists", value := .null }], []⟩
          (.obj [])).statsUpdates = [] :=
  ⟨(Acceso.executeWorkflow_stats_once (fun _ => .ok ()) ⟨1, [], [⟨"A"⟩]⟩ (.obj [])).1
      (Or.inl rfl),
   (Acceso.executeWorkflow_stats_once (fun _ => .ok ())
        ⟨2, [{ field := "x", ctype := "", operator := "exists", value := .null }], []⟩
        (.obj [])).2 (by norm_num) (by rfl)⟩

namespace Acceso

lemma jsStrictEq_undefined_eq_false (v : JSValue) (hv : v ≠ .undefined) :
    jsStrictEq .undefined v = false := by
  cases v <;> first | rfl | exact absurd rfl hv

lemma jsStrictEq_undefined_eq_true : jsStrictEq .undefined .undefined = true := rfl

lemma jsLe_undefined (v : JSValue) : jsLe .undefined v = false := by
  cases v <;> rfl

lemma jsGe_undefined (v : JSValue) : jsGe .undefined v = false := by
  cases v <;> rfl

end Acceso

/-- C4 counterexample: a `greater_than` condition over a field missing from
the trigger data is met, not unmet — the lookup yields `undefined`, so the
failing guard `value <= targetValue` is a NaN comparison and never fires —
and the workflow therefore executes its actions instead of being skipped. -/
theorem Acceso.evaluateConditions_missing_gt_met :
    Acceso.evaluateConditions
        [{ field := "amount", ctype := "", operator := "greater_than",
           value := .num 100 }] (.obj []) = true ∧
      (Acceso.executeWorkflow (fun _ => .ok ())
          ⟨4, [{ field := "amount", ctype := "", operator := "greater_than",
                 value := .num 100 }], [⟨"A"⟩]⟩
          (.obj [])).executedActions = ["A"] :=
  ⟨rfl, rfl⟩

/-- C4 amended: a condition whose dot-separated field path is missing from
the trigger data looks up `undefined`; it is then unmet under `equals`/`eq`
(for any defined target) and under `exists`, met under `not_equals`/`ne`
(for any defined target), met under `greater_than`/`gt`/`less_than`/`lt` —
the relational guards compare NaN and never fail the condition, so such
conditions do not cause a skip — and under `contains` it is met exactly when
the stringified target occurs inside `"undefined"`. -/
theorem Acceso.evaluateConditions_missing_field (c : Acceso.Condition)
    (data : Acceso.JSValue)
    (hmiss : Acceso.getNestedValue data
        (if c.field = "" then c.ctype else c.field) = .undefined) :
    ((c.operator = "equals" ∨ c.operator = "eq") → c.value ≠ .undefined →
      Acceso.evaluateConditions [c] data = false) ∧
    (c.operator = "exists" → Acceso.evaluateConditions [c] data = false) ∧
    ((c.operator = "greater_than" ∨ c.operator = "gt" ∨
        c.operator = "less_than" ∨ c.operator = "lt") →
      Acceso.evaluateConditions [c] data = true) ∧
    ((c.operator = "not_equals" ∨ c.operator = "ne") → c.value ≠ .undefined →
      Acceso.evaluateConditions [c] data = true) ∧
    (c.operator = "contains" →
      Acceso.evaluateConditions [c] data =
        Acceso.hasSubstr "undefined" (Acceso.jsToString c.value)) := by
  obtain ⟨cf, ct, cop, cv⟩ := c
  simp only at hmiss
  refine ⟨?_, ?_, ?_, ?_, ?_⟩
  · rintro (hop | hop) hval <;> subst hop <;>
      simp [Acceso.evaluateConditions, hmiss,
        Acceso.jsStrictEq_undefined_eq_false _ hval]
  · intro hop; subst hop
    simp [Acceso.evaluateConditions, hmiss, Acceso.jsStrictEq_undefined_eq_true]
  · rintro (hop | hop | hop | hop) <;> subst hop <;>
      simp [Acceso.evaluateConditions, hmiss, Acceso.jsLe_undefined, Acceso.jsGe_undefined]
  · rintro (hop | hop) hval <;> subst hop <;>
      simp [Acceso.evaluateConditions, hmiss,
        Acceso.jsStrictEq_undefined_eq_false _ hval]
  · intro hop; subst hop
    simp [Acceso.evaluateConditions, hmiss, Acceso.jsToString]

/-- Witness for C4 amended: the condition field "amount" is missing from the
empty trigger object; `equals 100` is unmet, `exists` is unmet,
`greater_than 100` is met, `not_equals 100` is met, and `contains "defi"` is
met (`"defi"` occurs in `"undefined"`). -/
theorem Acceso.evaluateConditions_missing_field_witness :
    Acceso.evaluateConditions
        [{ field := "amount", ctype := "", operator := "equals", value := .num 100 }]
        (.obj []) = false ∧
      Acceso.evaluateConditions
          [{ field := "amount", ctype := "", operator := "exists", value := .num 100 }]
          (.obj []) = false ∧
      Acceso.evaluateConditions
          [{ field := "amount", ctype := "", operator := "greater_than", value := .num 100 }]
          (.obj []) = true ∧
      Acceso.evaluateConditions
          [{ field := "amount", ctype := "", operator := "not_equals", value := .num 100 }]
          (.obj []) = true ∧
      Acceso.evaluateConditions
          [{ field := "amount", ctype := "", operator := "contains", value := .str "defi" }]
          (.obj []) = true :=
  ⟨(Acceso.evaluateConditions_missing_field
      { field := "amount", ctype := "", operator := "equals", value := .num 100 }
      (.obj []) rfl).1 (Or.inl rfl) (by intro h; cases h),
   (Acceso.evaluateConditions_missing_field
      { field := "amount", ctype := "", operator := "exists", value := .num 100 }
      (.obj []) rfl).2.1 rfl,
   (Acceso.evaluateConditions_missing_field
      { field := "amount", ctype := "", operator := "greater_than", value := .num 100 }
      (.obj []) rfl).2.2.1 (Or.inl rfl),
   (Acceso.evaluateConditions_missing_field
      { field := "amount", ctype := "", operator := "not_equals", value := .num 100 }
      (.obj []) rfl).2.2.2.1 (Or.inl rfl) (by intro h; cases h),
   by
    rw [(Acceso.evaluateConditions_missing_field
      { field := "amount", ctype := "", operator := "contains", value := .str "defi" }
      (.obj []) rfl).2.2.2.2 rfl]
    rfl⟩

/-- C10: a condition whose operator is none of the supported names falls into
the `switch` default, which only logs — the condition never fails the
conjunction, so a workflow whose only condition carries an unknown operator
evaluates its conditions to true and executes its actions exactly as if the
conditions list were empty. -/
theorem Acceso.executeWorkflow_unknown_operator (c : Acceso.Condition)
    (data : Acceso.JSValue) (runAction : Acceso.WfAction → Except String Unit)
    (id : Nat) (acts : List Acceso.WfAction)
    (hop : c.operator ∉ ["equals", "eq", "not_equals", "ne", "greater_than", "gt",
        "less_than", "lt", "contains", "exists"]) :
    Acceso.evaluateConditions [c] data = true ∧
      Acceso.executeWorkflow runAction ⟨id, [c], acts⟩ data =
        Acceso.executeWorkflow runAction ⟨id, [], acts⟩ data := by
  simp only [List.mem_cons, List.mem_singleton] at hop
  push_neg at hop
  obtain ⟨h1, h2, h3, h4, h5, h6, h7, h8, h9, h10⟩ := hop
  have heval : Acceso.evaluateConditions [c] data = true := by
    obtain ⟨cf, ct, cop, cv⟩ := c
    simp only at h1 h2 h3 h4 h5 h6 h7 h8 h9 h10
    simp only [Acceso.evaluateConditions, Bool.and_true]
    split <;> simp_all
  refine ⟨heval, ?_⟩
  simp [Acceso.executeWorkflow, heval]

/-- Witness for C10: operator "frobnicate" on the only condition; the
workflow behaves as if it had no conditions. -/
theorem Acceso.executeWorkflow_unknown_operator_witness :
    Acceso.evaluateConditions
        [{ field := "x", ctype := "", operator := "frobnicate", value := .num 1 }]
        (.obj []) = true ∧
      Acceso.executeWorkflow (fun _ => .ok ())
          ⟨9, [{ field := "x", ctype := "", operator := "frobnicate", value := .num 1 }],
            [⟨"A"⟩]⟩ (.obj []) =
        Acceso.executeWorkflow (fun _ => .ok ()) ⟨9, [], [⟨"A"⟩]⟩ (.obj []) :=
  Acceso.executeWorkflow_unknown_operator
    { field := "x", ctype := "", operator := "frobnicate", value := .num 1 }
    (.obj []) (fun _ => .ok ()) 9 [⟨"A"⟩] (by decide)
